import Mathlib

/-!
Verification development for the CpTrackBot Telegram bot (`src/index.js`).

The bot tracks Codeforces handles per chat group and reports how many
problems each tracked handle solved today.  We shallowly embed:

* the string primitives the handler uses (JS `includes`, `startsWith`,
  `trim`, `split(" ")`, and case-insensitive global `replace`);
* the judge client `getTodaySolvedCount`;
* the `bot.on("message")` handler, as a pure function from the incoming
  message and the chat's stored group record to the outbound messages,
  the store accesses performed, the judge-API calls made, and the new
  stored record.
-/

/-- `startsChars p s` : does `s` start with `p`?  (JS `String.prototype.startsWith`,
on character lists.) -/
def startsChars : List Char → List Char → Bool
  | [], _ => true
  | _ :: _, [] => false
  | c :: p, d :: s => c == d && startsChars p s

/-- `hasSub s p` : does `p` occur as a contiguous substring of `s`?
(JS `String.prototype.includes`, case-sensitive, on character lists.) -/
def hasSub : List Char → List Char → Bool
  | [], p => p.isEmpty
  | c :: s, p => startsChars p (c :: s) || hasSub s p

/-- JS `text.includes(pat)` — case-sensitive substring containment. -/
def strContains (s pat : String) : Bool := hasSub s.data pat.data

/-- JS `text.startsWith(pat)`. -/
def startsWithStr (s pat : String) : Bool := startsChars pat.data s.data

/-- Case-insensitive version of `startsChars` (ASCII case folding by
`Char.toLower`), used to model a `RegExp(pat, "i")` match of the literal
pattern at the head of the string. -/
def ciStarts : List Char → List Char → Bool
  | [], _ => true
  | _ :: _, [] => false
  | c :: p, d :: s => c.toLower == d.toLower && ciStarts p s

/-- One pass of JS `s.replace(new RegExp(pat, "gi"), "")`: scan left to
right, delete each non-overlapping case-insensitive occurrence of `pat`.
`fuel` bounds the recursion; it is initialised to the length of `s`,
which suffices because each step consumes at least one character. -/
def replaceCIAux (p : List Char) : Nat → List Char → List Char
  | _, [] => []
  | 0, s => s
  | fuel + 1, c :: cs =>
    if ciStarts p (c :: cs) then
      replaceCIAux p fuel (List.drop (p.length - 1) cs)
    else
      c :: replaceCIAux p fuel cs

/-- JS `text.replace(new RegExp(pat, "gi"), "")` — delete every
case-insensitive occurrence of the (non-empty) literal pattern. -/
def replaceCI (pat s : String) : String :=
  ⟨replaceCIAux pat.data s.data.length s.data⟩

/-- JS `String.prototype.trim` — strip whitespace from both ends. -/
def trimStr (s : String) : String :=
  ⟨((s.data.dropWhile Char.isWhitespace).reverse.dropWhile Char.isWhitespace).reverse⟩

/-- Helper for `splitSpace`; `cur` is the current chunk, reversed. -/
def splitSpaceAux : List Char → List Char → List String
  | [], cur => [⟨cur.reverse⟩]
  | c :: cs, cur =>
    if c == ' ' then ⟨cur.reverse⟩ :: splitSpaceAux cs []
    else splitSpaceAux cs (c :: cur)

/-- JS `text.split(" ")` — split at every single space character;
consecutive spaces produce empty chunks, and the result is never empty. -/
def splitSpace (s : String) : List String := splitSpaceAux s.data []

/-- The cleaned text the handler dispatches on:
`text.replace(new RegExp(botUsername, "gi"), "").trim()`. -/
def cleanedOf (botUsername text : String) : String :=
  trimStr (replaceCI botUsername text)

/-- Case-insensitive substring containment (not used by the code, which
gates on the case-sensitive `includes`; stated for comparison). -/
def strContainsCI (s pat : String) : Bool :=
  hasSub (s.data.map Char.toLower) (pat.data.map Char.toLower)

/-- Modelled from the spec: the maximal non-empty whitespace-separated
tokens of a string ("extract the second whitespace-separated token").
`cur` is the current token, reversed. -/
def wsTokensAux : List Char → List Char → List String
  | [], cur => if cur.isEmpty then [] else [⟨cur.reverse⟩]
  | c :: cs, cur =>
    if c.isWhitespace then
      if cur.isEmpty then wsTokensAux cs [] else ⟨cur.reverse⟩ :: wsTokensAux cs []
    else wsTokensAux cs (c :: cur)

/-- Modelled from the spec: whitespace-separated tokens of a string. -/
def wsTokens (s : String) : List String := wsTokensAux s.data []

/-- Decimal digit string of a natural number, most significant digit
first; `fuel` bounds the recursion (`fuel = n` suffices for `n ≠ 0`). -/
def natStrAux : Nat → Nat → List Char
  | 0, _ => []
  | fuel + 1, n =>
    if n < 10 then [Nat.digitChar n]
    else natStrAux fuel (n / 10) ++ [Nat.digitChar (n % 10)]

/-- JS number-to-string for a non-negative integer (template literal
`${n}`): usual decimal notation. -/
def natStr (n : Nat) : String :=
  if n = 0 then "0" else ⟨natStrAux n n⟩

/-! ## Judge client (`getTodaySolvedCount`) -/

/-- A submission's problem, as read from the judge API
(`sub.problem.contestId`, `sub.problem.index`). -/
structure Problem where
  contestId : Nat
  index : String
deriving DecidableEq, Repr

/-- A judge-API submission: `verdict`, `creationTimeSeconds`, `problem`. -/
structure Submission where
  verdict : String
  creationTimeSeconds : Int
  problem : Problem
deriving DecidableEq, Repr

/-- The filter of the loop body: `sub.verdict === "OK" &&
sub.creationTimeSeconds >= startOfToday`. -/
def acceptedToday (startOfToday : Int) (sub : Submission) : Bool :=
  sub.verdict == "OK" && decide (sub.creationTimeSeconds ≥ startOfToday)

/-- The set key the code inserts: `` `${sub.problem.contestId}-${sub.problem.index}` ``. -/
def problemKey (p : Problem) : String :=
  ⟨(natStr p.contestId).data ++ '-' :: p.index.data⟩

/-- `getTodaySolvedCount`, after its successful API call: the size of the
set of keys `` `${contestId}-${index}` `` collected over the submissions
passing the verdict/time filter.  The JS `Set` insertion loop over the
filtered submissions followed by `.size` is the number of distinct keys,
i.e. the length of the deduplicated key list. -/
def getTodaySolvedCount (startOfToday : Int) (submissions : List Submission) : Nat :=
  (((submissions.filter (acceptedToday startOfToday)).map
      (fun sub => problemKey sub.problem)).dedup).length

/-- Stated from the spec's words, for comparison with
`getTodaySolvedCount`: the number of distinct problem identities
(contestId, index pairs) among the filtered submissions. -/
def distinctProblemCount (startOfToday : Int) (submissions : List Submission) : Nat :=
  (((submissions.filter (acceptedToday startOfToday)).map
      (fun sub => (sub.problem.contestId, sub.problem.index))).dedup).length

/-! ## Data model and message handler -/

/-- One tracked handle entry, `{ handle }`. -/
structure TrackedUser where
  handle : String
deriving DecidableEq, Repr

/-- A document of the `groups` collection. -/
structure GroupRecord where
  groupId : Int
  groupName : String
  users : List TrackedUser
deriving DecidableEq, Repr

/-- The chat a message arrives in (`msg.chat`). -/
structure Chat where
  id : Int
  type : String
  title : String
deriving DecidableEq, Repr

/-- An incoming Telegram message (`msg`); `text` is optional as in the
API (`msg.text || ""`). -/
structure Msg where
  chat : Chat
  text : Option String
deriving DecidableEq, Repr

/-- Observable outcome of one run of the message handler: outbound
messages in send order, number of store reads (`findOne`) and writes
(`insertOne`/`updateOne`), judge-API calls in order, and the chat's
stored record afterwards. -/
structure HandlerResult where
  messages : List String
  storeReads : Nat
  storeWrites : Nat
  judgeCalls : List String
  store : Option GroupRecord
deriving DecidableEq, Repr

/-- Outcome of the early `return` paths that touch nothing. -/
def silentResult (store : Option GroupRecord) : HandlerResult :=
  { messages := [], storeReads := 0, storeWrites := 0, judgeCalls := [], store := store }

def usageMsg : String :=
  "❌ Please provide a Codeforces handle. Example: `/add tourist`"

def createdMsg (h : String) : String :=
  "✅ Added " ++ h ++ " and created new tracking for this group."

def alreadyMsg (h : String) : String :=
  "⚠️ " ++ h ++ " is already being tracked."

def addedMsg (h : String) : String :=
  "✅ Added " ++ h ++ " to tracking list."

def noUsersMsg : String :=
  "No users are being tracked in this group. Use /add <handle> to add someone."

def solvedMsg (h : String) (n : Nat) : String :=
  "📝 " ++ h ++ " solved " ++ natStr n ++ " problems today."

def fetchFailMsg (h : String) : String :=
  "❌ Could not fetch data for " ++ h ++ "."

/-- The `/add` branch after a non-falsy handle argument was extracted:
`findOne`, then insert / duplicate warning / append. -/
def handleAddCore (chatId : Int) (title : String) (h : String)
    (store : Option GroupRecord) : HandlerResult :=
  match store with
  | none =>
    { messages := [createdMsg h], storeReads := 1, storeWrites := 1, judgeCalls := [],
      store := some { groupId := chatId, groupName := title, users := [{ handle := h }] } }
  | some existing =>
    if (existing.users.any fun u => u.handle == h) = true then
      { messages := [alreadyMsg h], storeReads := 1, storeWrites := 0, judgeCalls := [],
        store := some existing }
    else
      { messages := [addedMsg h], storeReads := 1, storeWrites := 1, judgeCalls := [],
        store := some { existing with users := existing.users ++ [{ handle := h }] } }

/-- The `/add` branch: `const handle = cleanedText.split(" ")[1];
if (!handle) ...` — both an absent element and the empty string are
falsy in JS and yield the usage error before any store access. -/
def handleAdd (chatId : Int) (title : String) (cleaned : String)
    (store : Option GroupRecord) : HandlerResult :=
  match (splitSpace cleaned).get? 1 with
  | none =>
    { messages := [usageMsg], storeReads := 0, storeWrites := 0, judgeCalls := [],
      store := store }
  | some h =>
    if h = "" then
      { messages := [usageMsg], storeReads := 0, storeWrites := 0, judgeCalls := [],
        store := store }
    else handleAddCore chatId title h store

/-- One line of the report loop: `getTodaySolvedCount` succeeds with `n`
or throws, caught per handle. -/
def reportLine (judge : String → Except Unit Nat) (h : String) : String :=
  match judge h with
  | .ok n => solvedMsg h n
  | .error _ => fetchFailMsg h

/-- The report branch: `findOne`, then one message per tracked handle in
list order (per-handle failure caught inside the loop), or the
"no users" message when the record is absent or has no users. -/
def handleReport (judge : String → Except Unit Nat)
    (store : Option GroupRecord) : HandlerResult :=
  match store with
  | some grpdata =>
    if grpdata.users.length > 0 then
      { messages := grpdata.users.map fun u => reportLine judge u.handle,
        storeReads := 1, storeWrites := 0,
        judgeCalls := grpdata.users.map fun u => u.handle,
        store := some grpdata }
    else
      { messages := [noUsersMsg], storeReads := 1, storeWrites := 0, judgeCalls := [],
        store := some grpdata }
  | none =>
    { messages := [noUsersMsg], storeReads := 1, storeWrites := 0, judgeCalls := [],
      store := none }

/-- The `bot.on("message")` handler.  `judge h` is the outcome the judge
client would produce for handle `h` during this run (success with a
count, or failure).  `store` is the `groups` document for this chat
(`findOne({ groupId: chatId })` result), threaded explicitly. -/
def handleMessage (botUsername : String) (judge : String → Except Unit Nat)
    (msg : Msg) (store : Option GroupRecord) : HandlerResult :=
  if msg.chat.type ≠ "private" ∧ strContains (msg.text.getD "") botUsername = false then
    silentResult store
  else if startsWithStr (cleanedOf botUsername (msg.text.getD "")) "/add" = true then
    handleAdd msg.chat.id msg.chat.title (cleanedOf botUsername (msg.text.getD "")) store
  else
    handleReport judge store

/-! ## Properties of the decimal key encoding -/

lemma natStrAux_mem (fuel : Nat) :
    ∀ (n : Nat), ∀ c ∈ natStrAux fuel n, ∃ d, d < 10 ∧ c = Nat.digitChar d := by
  induction fuel with
  | zero => intro n c hc; simp [natStrAux] at hc
  | succ fuel ih =>
    intro n c hc
    rw [natStrAux] at hc
    by_cases h : n < 10
    · rw [if_pos h] at hc
      simp only [List.mem_singleton] at hc
      exact ⟨n, h, hc⟩
    · rw [if_neg h] at hc
      rcases List.mem_append.mp hc with hc | hc
      · exact ih _ c hc
      · simp only [List.mem_singleton] at hc
        exact ⟨n % 10, Nat.mod_lt _ (by norm_num), hc⟩

lemma digitChar_ne_dash : ∀ d < 10, Nat.digitChar d ≠ '-' := by decide

lemma digitChar_inj_lt : ∀ a < 10, ∀ b < 10, Nat.digitChar a = Nat.digitChar b → a = b := by
  decide

lemma natStr_no_dash (n : Nat) : '-' ∉ (natStr n).data := by
  unfold natStr
  split
  · decide
  · intro hmem
    obtain ⟨d, hd, hc⟩ := natStrAux_mem n n '-' hmem
    exact digitChar_ne_dash d hd hc.symm

lemma natStrAux_eq_digits (fuel : Nat) :
    ∀ (n : Nat), n ≠ 0 → n ≤ fuel →
      natStrAux fuel n = (Nat.digits 10 n).reverse.map Nat.digitChar := by
  induction fuel with
  | zero => intro n hn hf; omega
  | succ fuel ih =>
    intro n hn hf
    rw [natStrAux]
    by_cases h : n < 10
    · rw [if_pos h, Nat.digits_of_lt 10 n hn h]
      simp
    · rw [if_neg h, Nat.digits_def' (by norm_num : (1:Nat) < 10) (Nat.pos_of_ne_zero hn),
        List.reverse_cons, List.map_append]
      have hdiv : n / 10 ≠ 0 := by
        have := Nat.div_pos (by omega : 10 ≤ n) (by norm_num : (0:Nat) < 10)
        omega
      have hlt : n / 10 < n := Nat.div_lt_self (Nat.pos_of_ne_zero hn) (by norm_num)
      rw [ih (n / 10) hdiv (by omega)]
      simp

lemma map_digitChar_inj_lists :
    ∀ (l1 l2 : List Nat), (∀ d ∈ l1, d < 10) → (∀ d ∈ l2, d < 10) →
      l1.map Nat.digitChar = l2.map Nat.digitChar → l1 = l2 := by
  intro l1
  induction l1 with
  | nil =>
    intro l2 _ _ h
    cases l2 with
    | nil => rfl
    | cons y l2 => simp at h
  | cons x l1 ih =>
    intro l2 hda hdb h
    cases l2 with
    | nil => simp at h
    | cons y l2 =>
      simp only [List.map_cons, List.cons.injEq] at h
      have hx : x = y :=
        digitChar_inj_lt x (hda x (List.mem_cons_self x l1))
          y (hdb y (List.mem_cons_self y l2)) h.1
      have ht : l1 = l2 :=
        ih l2 (fun d hd => hda d (List.mem_cons_of_mem x hd))
          (fun d hd => hdb d (List.mem_cons_of_mem y hd)) h.2
      rw [hx, ht]

lemma natStr_inj {a b : Nat} (h : (natStr a).data = (natStr b).data) : a = b := by
  by_cases ha : a = 0 <;> by_cases hb : b = 0
  · omega
  · exfalso
    rw [ha] at h
    simp only [natStr, if_pos rfl, if_neg hb] at h
    have h' : (Nat.digits 10 b).reverse.map Nat.digitChar = ['0'] := by
      rw [← natStrAux_eq_digits b b hb le_rfl]; exact h.symm
    have hlen : (Nat.digits 10 b).length = 1 := by
      have := congrArg List.length h'
      simpa using this
    obtain ⟨d, hd⟩ := List.length_eq_one.mp hlen
    rw [hd] at h'
    simp only [List.reverse_singleton, List.map_cons, List.map_nil] at h'
    have hdlt : d < 10 :=
      Nat.digits_lt_base (by norm_num) (by rw [hd]; exact List.mem_singleton.mpr rfl)
    have hd0 : d = 0 := digitChar_inj_lt d hdlt 0 (by norm_num) (List.head_eq_of_cons_eq h')
    have : b = 0 := by
      have := Nat.ofDigits_digits 10 b
      rw [hd, hd0] at this
      simpa [Nat.ofDigits] using this.symm
    exact hb this
  · exfalso
    rw [hb] at h
    simp only [natStr, if_pos rfl, if_neg ha] at h
    have h' : (Nat.digits 10 a).reverse.map Nat.digitChar = ['0'] := by
      rw [← natStrAux_eq_digits a a ha le_rfl]; exact h
    have hlen : (Nat.digits 10 a).length = 1 := by
      have := congrArg List.length h'
      simpa using this
    obtain ⟨d, hd⟩ := List.length_eq_one.mp hlen
    rw [hd] at h'
    simp only [List.reverse_singleton, List.map_cons, List.map_nil] at h'
    have hdlt : d < 10 :=
      Nat.digits_lt_base (by norm_num) (by rw [hd]; exact List.mem_singleton.mpr rfl)
    have hd0 : d = 0 := digitChar_inj_lt d hdlt 0 (by norm_num) (List.head_eq_of_cons_eq h')
    have : a = 0 := by
      have := Nat.ofDigits_digits 10 a
      rw [hd, hd0] at this
      simpa [Nat.ofDigits] using this.symm
    exact ha this
  · simp only [natStr, if_neg ha, if_neg hb] at h
    rw [natStrAux_eq_digits a a ha le_rfl, natStrAux_eq_digits b b hb le_rfl] at h
    have hda : ∀ d ∈ (Nat.digits 10 a).reverse, d < 10 := by
      intro d hd
      exact Nat.digits_lt_base (by norm_num) (List.mem_reverse.mp hd)
    have hdb : ∀ d ∈ (Nat.digits 10 b).reverse, d < 10 := by
      intro d hd
      exact Nat.digits_lt_base (by norm_num) (List.mem_reverse.mp hd)
    have hrev : (Nat.digits 10 a).reverse = (Nat.digits 10 b).reverse :=
      map_digitChar_inj_lists _ _ hda hdb h
    have hdig : Nat.digits 10 a = Nat.digits 10 b := List.reverse_injective hrev
    calc a = Nat.ofDigits 10 (Nat.digits 10 a) := (Nat.ofDigits_digits 10 a).symm
      _ = Nat.ofDigits 10 (Nat.digits 10 b) := by rw [hdig]
      _ = b := Nat.ofDigits_digits 10 b

lemma append_dash_inj :
    ∀ (A B S T : List Char), '-' ∉ A → '-' ∉ B →
      A ++ '-' :: S = B ++ '-' :: T → A = B ∧ S = T := by
  intro A
  induction A with
  | nil =>
    intro B S T _ hB h
    cases B with
    | nil => simpa using h
    | cons b B' =>
      exfalso
      simp only [List.nil_append, List.cons_append, List.cons.injEq] at h
      exact hB (h.1 ▸ List.mem_cons_self b B')
  | cons a A' ih =>
    intro B S T hA hB h
    cases B with
    | nil =>
      exfalso
      simp only [List.cons_append, List.nil_append, List.cons.injEq] at h
      exact hA (h.1 ▸ List.mem_cons_self a A')
    | cons b B' =>
      simp only [List.cons_append, List.cons.injEq] at h
      have := ih B' S T (fun hm => hA (List.mem_cons_of_mem a hm))
        (fun hm => hB (List.mem_cons_of_mem b hm)) h.2
      exact ⟨by rw [h.1, this.1], this.2⟩

/-- The key of a (contestId, index) pair. -/
def pairKey (ci : Nat × String) : String := problemKey ⟨ci.1, ci.2⟩

lemma pairKey_inj : Function.Injective pairKey := by
  intro p q h
  have h' : (natStr p.1).data ++ '-' :: p.2.data
      = (natStr q.1).data ++ '-' :: q.2.data := congrArg String.data h
  obtain ⟨h1, h2⟩ :=
    append_dash_inj _ _ _ _ (natStr_no_dash p.1) (natStr_no_dash q.1) h'
  have hc : p.1 = q.1 := natStr_inj h1
  have hi : p.2 = q.2 := by
    cases hp : p.2 with | _ d1 =>
    cases hq : q.2 with | _ d2 =>
    rw [hp, hq] at h2
    exact congrArg String.mk (by simpa using h2)
  exact Prod.ext hc hi

lemma dedup_map_of_injective {α β : Type} [DecidableEq α] [DecidableEq β]
    {f : α → β} (hf : Function.Injective f) (l : List α) :
    (l.map f).dedup = l.dedup.map f := by
  induction l with
  | nil => simp
  | cons a l ih =>
    by_cases h : a ∈ l
    · rw [List.map_cons, List.dedup_cons_of_mem ((List.mem_map_of_injective hf).mpr h),
        List.dedup_cons_of_mem h, ih]
    · rw [List.map_cons,
        List.dedup_cons_of_not_mem (fun hm => h ((List.mem_map_of_injective hf).mp hm)),
        List.dedup_cons_of_not_mem h, List.map_cons, ih]

/-! ## Shared handler lemmas -/

/-- When the mention gate does not fire, the handler dispatches on the
cleaned text. -/
lemma handleMessage_gate_passed (bu : String) (judge : String → Except Unit Nat)
    (msg : Msg) (store : Option GroupRecord)
    (hgate : msg.chat.type = "private" ∨ strContains (msg.text.getD "") bu = true) :
    handleMessage bu judge msg store =
      if startsWithStr (cleanedOf bu (msg.text.getD "")) "/add" = true then
        handleAdd msg.chat.id msg.chat.title (cleanedOf bu (msg.text.getD "")) store
      else handleReport judge store := by
  unfold handleMessage
  rw [if_neg]
  rintro ⟨hne, hf⟩
  rcases hgate with h | h
  · exact hne h
  · rw [h] at hf
    simp at hf

/-- Reduction of the add branch on an existing record. -/
lemma handleAddCore_some (chatId : Int) (title h : String) (g : GroupRecord) :
    handleAddCore chatId title h (some g) =
      if (g.users.any fun u => u.handle == h) = true then
        { messages := [alreadyMsg h], storeReads := 1, storeWrites := 0, judgeCalls := [],
          store := some g }
      else
        { messages := [addedMsg h], storeReads := 1, storeWrites := 1, judgeCalls := [],
          store := some { g with users := g.users ++ [{ handle := h }] } } := rfl

/-- Reduction of the report branch on an existing record. -/
lemma handleReport_some (judge : String → Except Unit Nat) (g : GroupRecord) :
    handleReport judge (some g) =
      if g.users.length > 0 then
        { messages := g.users.map fun u => reportLine judge u.handle,
          storeReads := 1, storeWrites := 0,
          judgeCalls := g.users.map fun u => u.handle, store := some g }
      else
        { messages := [noUsersMsg], storeReads := 1, storeWrites := 0, judgeCalls := [],
          store := some g } := rfl

/-- The add branch never calls the judge API. -/
lemma handleAdd_judgeCalls (chatId : Int) (title cleaned : String)
    (store : Option GroupRecord) : (handleAdd chatId title cleaned store).judgeCalls = [] := by
  unfold handleAdd
  split
  · rfl
  · split
    · rfl
    · unfold handleAddCore
      split
      · rfl
      · split <;> rfl

/-! ## Claims -/

/-- C1: for every submission list (on the success path), `getTodaySolvedCount`
returns the number of distinct problem identities — (contestId, index)
pairs — among submissions with verdict `"OK"` and creation time at or
after the midnight cutoff; in particular, two accepted submissions to the
same problem today plus one accepted submission to a different problem
yesterday yield `1`. -/
theorem getTodaySolvedCount_distinct_pairs :
    (∀ (startOfToday : Int) (subs : List Submission),
        getTodaySolvedCount startOfToday subs = distinctProblemCount startOfToday subs) ∧
    getTodaySolvedCount 1000
      [⟨"OK", 1500, ⟨1, "A"⟩⟩, ⟨"OK", 1600, ⟨1, "A"⟩⟩, ⟨"OK", 500, ⟨2, "B"⟩⟩] = 1 := by
  constructor
  · intro t subs
    unfold getTodaySolvedCount distinctProblemCount
    have hfun : (fun sub : Submission => problemKey sub.problem)
        = pairKey ∘ (fun sub : Submission => (sub.problem.contestId, sub.problem.index)) := by
      funext sub
      rfl
    rw [hfun, ← List.map_map, dedup_map_of_injective pairKey_inj, List.length_map]
  · decide

/-- C2: a message in a non-private chat whose text does not contain the
bot mention token is ignored: no outbound message, no store read or
write, store unchanged. -/
theorem group_without_mention_is_ignored (bu : String) (judge : String → Except Unit Nat)
    (msg : Msg) (store : Option GroupRecord)
    (hg : msg.chat.type ≠ "private")
    (hm : strContains (msg.text.getD "") bu = false) :
    (handleMessage bu judge msg store).messages = [] ∧
    (handleMessage bu judge msg store).storeReads = 0 ∧
    (handleMessage bu judge msg store).storeWrites = 0 ∧
    (handleMessage bu judge msg store).store = store := by
  unfold handleMessage
  rw [if_pos ⟨hg, hm⟩]
  exact ⟨rfl, rfl, rfl, rfl⟩

theorem group_without_mention_is_ignored_witness :
    (handleMessage "@CpTrackBuddybot" (fun _ => Except.error ())
        ⟨⟨-100, "supergroup", "G"⟩, some "hello"⟩ (some ⟨-100, "G", [⟨"x"⟩]⟩)).messages = [] ∧
    (handleMessage "@CpTrackBuddybot" (fun _ => Except.error ())
        ⟨⟨-100, "supergroup", "G"⟩, some "hello"⟩ (some ⟨-100, "G", [⟨"x"⟩]⟩)).storeReads = 0 ∧
    (handleMessage "@CpTrackBuddybot" (fun _ => Except.error ())
        ⟨⟨-100, "supergroup", "G"⟩, some "hello"⟩ (some ⟨-100, "G", [⟨"x"⟩]⟩)).storeWrites = 0 ∧
    (handleMessage "@CpTrackBuddybot" (fun _ => Except.error ())
        ⟨⟨-100, "supergroup", "G"⟩, some "hello"⟩
        (some ⟨-100, "G", [⟨"x"⟩]⟩)).store = some ⟨-100, "G", [⟨"x"⟩]⟩ :=
  group_without_mention_is_ignored "@CpTrackBuddybot" (fun _ => Except.error ())
    ⟨⟨-100, "supergroup", "G"⟩, some "hello"⟩ (some ⟨-100, "G", [⟨"x"⟩]⟩)
    (by decide) (by decide)

/-- C10: the mention gate is case-sensitive while the stripping is
case-insensitive, so a group message containing the bot's mention only in
a different letter case is ignored entirely: no reply, no store access. -/
theorem mention_gate_case_sensitive (bu : String) (judge : String → Except Unit Nat)
    (msg : Msg) (store : Option GroupRecord)
    (hg : msg.chat.type ≠ "private")
    (_hci : strContainsCI (msg.text.getD "") bu = true)
    (hcs : strContains (msg.text.getD "") bu = false) :
    (handleMessage bu judge msg store).messages = [] ∧
    (handleMessage bu judge msg store).storeReads = 0 ∧
    (handleMessage bu judge msg store).storeWrites = 0 ∧
    (handleMessage bu judge msg store).store = store := by
  unfold handleMessage
  rw [if_pos ⟨hg, hcs⟩]
  exact ⟨rfl, rfl, rfl, rfl⟩

theorem mention_gate_case_sensitive_witness :
    strContainsCI "hi @cptrackbuddybot" "@CpTrackBuddybot" = true ∧
    ((handleMessage "@CpTrackBuddybot" (fun _ => Except.error ())
        ⟨⟨-100, "supergroup", "G"⟩, some "hi @cptrackbuddybot"⟩
        (some ⟨-100, "G", [⟨"x"⟩]⟩)).messages = [] ∧
      (handleMessage "@CpTrackBuddybot" (fun _ => Except.error ())
        ⟨⟨-100, "supergroup", "G"⟩, some "hi @cptrackbuddybot"⟩
        (some ⟨-100, "G", [⟨"x"⟩]⟩)).storeReads = 0 ∧
      (handleMessage "@CpTrackBuddybot" (fun _ => Except.error ())
        ⟨⟨-100, "supergroup", "G"⟩, some "hi @cptrackbuddybot"⟩
        (some ⟨-100, "G", [⟨"x"⟩]⟩)).storeWrites = 0 ∧
      (handleMessage "@CpTrackBuddybot" (fun _ => Except.error ())
        ⟨⟨-100, "supergroup", "G"⟩, some "hi @cptrackbuddybot"⟩
        (some ⟨-100, "G", [⟨"x"⟩]⟩)).store = some ⟨-100, "G", [⟨"x"⟩]⟩) :=
  ⟨by decide,
    mention_gate_case_sensitive "@CpTrackBuddybot" (fun _ => Except.error ())
      ⟨⟨-100, "supergroup", "G"⟩, some "hi @cptrackbuddybot"⟩ (some ⟨-100, "G", [⟨"x"⟩]⟩)
      (by decide) (by decide) (by decide)⟩

/-- C3: on the report path for a record tracking `[h1, h2]`, when the
judge call for `h1` succeeds with 3 and the call for `h2` fails, exactly
two messages go out, in list order: the solved-count line for `h1`, then
the per-handle failure line for `h2`; the failure does not abort the
loop, whose judge calls are still `[h1, h2]`. -/
theorem report_partial_failure_order (bu : String) (judge : String → Except Unit Nat)
    (msg : Msg) (g : GroupRecord) (h1 h2 : String)
    (hgate : msg.chat.type = "private" ∨ strContains (msg.text.getD "") bu = true)
    (hnotadd : startsWithStr (cleanedOf bu (msg.text.getD "")) "/add" = false)
    (husers : g.users = [⟨h1⟩, ⟨h2⟩])
    (hj1 : judge h1 = Except.ok 3) (hj2 : judge h2 = Except.error ()) :
    (handleMessage bu judge msg (some g)).messages = [solvedMsg h1 3, fetchFailMsg h2] ∧
    (handleMessage bu judge msg (some g)).judgeCalls = [h1, h2] := by
  rw [handleMessage_gate_passed bu judge msg (some g) hgate, hnotadd]
  simp only [Bool.false_eq_true, if_false]
  rw [handleReport_some, husers]
  simp [reportLine, hj1, hj2]

theorem report_partial_failure_order_witness :
    (handleMessage "@CpTrackBuddybot" (fun h => if h == "h1" then Except.ok 3 else Except.error ())
        ⟨⟨7, "private", "T"⟩, some "status"⟩
        (some ⟨7, "G", [⟨"h1"⟩, ⟨"h2"⟩]⟩)).messages = [solvedMsg "h1" 3, fetchFailMsg "h2"] ∧
    (handleMessage "@CpTrackBuddybot" (fun h => if h == "h1" then Except.ok 3 else Except.error ())
        ⟨⟨7, "private", "T"⟩, some "status"⟩
        (some ⟨7, "G", [⟨"h1"⟩, ⟨"h2"⟩]⟩)).judgeCalls = ["h1", "h2"] :=
  report_partial_failure_order "@CpTrackBuddybot"
    (fun h => if h == "h1" then Except.ok 3 else Except.error ())
    ⟨⟨7, "private", "T"⟩, some "status"⟩ ⟨7, "G", [⟨"h1"⟩, ⟨"h2"⟩]⟩ "h1" "h2"
    (Or.inl rfl) (by decide) rfl rfl rfl

/-- C4: an `/add h1` command in a chat with no stored record creates
exactly one record, with users `[{handle := h1}]`, the chat's id and
title, and sends exactly one creation-confirmation message. -/
theorem add_creates_group_record (bu : String) (judge : String → Except Unit Nat)
    (msg : Msg) (h1 : String)
    (hgate : msg.chat.type = "private" ∨ strContains (msg.text.getD "") bu = true)
    (hstart : startsWithStr (cleanedOf bu (msg.text.getD "")) "/add" = true)
    (harg : (splitSpace (cleanedOf bu (msg.text.getD ""))).get? 1 = some h1)
    (hne : h1 ≠ "") :
    (handleMessage bu judge msg none).messages = [createdMsg h1] ∧
    (handleMessage bu judge msg none).store
      = some ⟨msg.chat.id, msg.chat.title, [⟨h1⟩]⟩ ∧
    (handleMessage bu judge msg none).storeWrites = 1 := by
  rw [handleMessage_gate_passed bu judge msg none hgate, hstart]
  simp only [if_true]
  unfold handleAdd
  rw [harg]
  simp only [if_neg hne]
  unfold handleAddCore
  exact ⟨rfl, rfl, rfl⟩

theorem add_creates_group_record_witness :
    (handleMessage "@CpTrackBuddybot" (fun _ => Except.error ())
        ⟨⟨-1, "supergroup", "CP Group"⟩, some "@CpTrackBuddybot /add tourist"⟩
        none).messages = [createdMsg "tourist"] ∧
    (handleMessage "@CpTrackBuddybot" (fun _ => Except.error ())
        ⟨⟨-1, "supergroup", "CP Group"⟩, some "@CpTrackBuddybot /add tourist"⟩
        none).store = some ⟨-1, "CP Group", [⟨"tourist"⟩]⟩ ∧
    (handleMessage "@CpTrackBuddybot" (fun _ => Except.error ())
        ⟨⟨-1, "supergroup", "CP Group"⟩, some "@CpTrackBuddybot /add tourist"⟩
        none).storeWrites = 1 :=
  add_creates_group_record "@CpTrackBuddybot" (fun _ => Except.error ())
    ⟨⟨-1, "supergroup", "CP Group"⟩, some "@CpTrackBuddybot /add tourist"⟩ "tourist"
    (Or.inr (by decide)) (by decide) (by decide) (by decide)

/-- C5: an `/add h2` command in a chat whose record does not already
track `h2` replaces the stored users list with the prior list plus
`{handle := h2}` appended at the end, and sends exactly one
addition-confirmation message. -/
theorem add_appends_handle (bu : String) (judge : String → Except Unit Nat)
    (msg : Msg) (g : GroupRecord) (h2 : String)
    (hgate : msg.chat.type = "private" ∨ strContains (msg.text.getD "") bu = true)
    (hstart : startsWithStr (cleanedOf bu (msg.text.getD "")) "/add" = true)
    (harg : (splitSpace (cleanedOf bu (msg.text.getD ""))).get? 1 = some h2)
    (hne : h2 ≠ "")
    (hnotmem : (g.users.any fun u => u.handle == h2) = false) :
    (handleMessage bu judge msg (some g)).messages = [addedMsg h2] ∧
    (handleMessage bu judge msg (some g)).store
      = some ⟨g.groupId, g.groupName, g.users ++ [⟨h2⟩]⟩ ∧
    (handleMessage bu judge msg (some g)).storeWrites = 1 := by
  rw [handleMessage_gate_passed bu judge msg (some g) hgate, hstart]
  simp only [if_true]
  unfold handleAdd
  rw [harg]
  simp only [if_neg hne]
  rw [handleAddCore_some, if_neg (by simp [hnotmem])]
  exact ⟨rfl, rfl, rfl⟩

theorem add_appends_handle_witness :
    (handleMessage "@CpTrackBuddybot" (fun _ => Except.error ())
        ⟨⟨7, "private", "T"⟩, some "/add h2"⟩
        (some ⟨7, "G", [⟨"h1"⟩]⟩)).messages = [addedMsg "h2"] ∧
    (handleMessage "@CpTrackBuddybot" (fun _ => Except.error ())
        ⟨⟨7, "private", "T"⟩, some "/add h2"⟩
        (some ⟨7, "G", [⟨"h1"⟩]⟩)).store = some ⟨7, "G", [⟨"h1"⟩, ⟨"h2"⟩]⟩ ∧
    (handleMessage "@CpTrackBuddybot" (fun _ => Except.error ())
        ⟨⟨7, "private", "T"⟩, some "/add h2"⟩
        (some ⟨7, "G", [⟨"h1"⟩]⟩)).storeWrites = 1 :=
  add_appends_handle "@CpTrackBuddybot" (fun _ => Except.error ())
    ⟨⟨7, "private", "T"⟩, some "/add h2"⟩ ⟨7, "G", [⟨"h1"⟩]⟩ "h2"
    (Or.inl rfl) (by decide) (by decide) (by decide) (by decide)

/-- C6: an `/add` command whose handle argument is already in the
record's users list under exact (case-sensitive) string match sends
exactly one "already tracked" message and leaves the stored record
unchanged, with no write. -/
theorem add_duplicate_no_mutation (bu : String) (judge : String → Except Unit Nat)
    (msg : Msg) (g : GroupRecord) (h : String)
    (hgate : msg.chat.type = "private" ∨ strContains (msg.text.getD "") bu = true)
    (hstart : startsWithStr (cleanedOf bu (msg.text.getD "")) "/add" = true)
    (harg : (splitSpace (cleanedOf bu (msg.text.getD ""))).get? 1 = some h)
    (hne : h ≠ "")
    (hmem : (g.users.any fun u => u.handle == h) = true) :
    (handleMessage bu judge msg (some g)).messages = [alreadyMsg h] ∧
    (handleMessage bu judge msg (some g)).store = some g ∧
    (handleMessage bu judge msg (some g)).storeWrites = 0 := by
  rw [handleMessage_gate_passed bu judge msg (some g) hgate, hstart]
  simp only [if_true]
  unfold handleAdd
  rw [harg]
  simp only [if_neg hne]
  rw [handleAddCore_some, if_pos hmem]
  exact ⟨rfl, rfl, rfl⟩

theorem add_duplicate_no_mutation_witness :
    (handleMessage "@CpTrackBuddybot" (fun _ => Except.error ())
        ⟨⟨7, "private", "T"⟩, some "/add h1"⟩
        (some ⟨7, "G", [⟨"h1"⟩]⟩)).messages = [alreadyMsg "h1"] ∧
    (handleMessage "@CpTrackBuddybot" (fun _ => Except.error ())
        ⟨⟨7, "private", "T"⟩, some "/add h1"⟩
        (some ⟨7, "G", [⟨"h1"⟩]⟩)).store = some ⟨7, "G", [⟨"h1"⟩]⟩ ∧
    (handleMessage "@CpTrackBuddybot" (fun _ => Except.error ())
        ⟨⟨7, "private", "T"⟩, some "/add h1"⟩
        (some ⟨7, "G", [⟨"h1"⟩]⟩)).storeWrites = 0 :=
  add_duplicate_no_mutation "@CpTrackBuddybot" (fun _ => Except.error ())
    ⟨⟨7, "private", "T"⟩, some "/add h1"⟩ ⟨7, "G", [⟨"h1"⟩]⟩ "h1"
    (Or.inl rfl) (by decide) (by decide) (by decide) (by decide)

/-- C7: on the report path, when the record is absent or its users list
is empty, the handler sends exactly one "no users tracked" message (with
the `/add` usage hint) and makes no judge-API calls. -/
theorem report_no_tracked_users (bu : String) (judge : String → Except Unit Nat)
    (msg : Msg) (store : Option GroupRecord)
    (hgate : msg.chat.type = "private" ∨ strContains (msg.text.getD "") bu = true)
    (hnotadd : startsWithStr (cleanedOf bu (msg.text.getD "")) "/add" = false)
    (hempty : ∀ g, store = some g → g.users = []) :
    (handleMessage bu judge msg store).messages = [noUsersMsg] ∧
    (handleMessage bu judge msg store).judgeCalls = [] := by
  rw [handleMessage_gate_passed bu judge msg store hgate, hnotadd]
  simp only [Bool.false_eq_true, if_false]
  cases store with
  | none => exact ⟨rfl, rfl⟩
  | some g =>
    have hg := hempty g rfl
    rw [handleReport_some, hg]
    simp

theorem report_no_tracked_users_witness :
    (handleMessage "@CpTrackBuddybot" (fun _ => Except.error ())
        ⟨⟨7, "private", "T"⟩, some "status"⟩ (some ⟨7, "G", []⟩)).messages = [noUsersMsg] ∧
    (handleMessage "@CpTrackBuddybot" (fun _ => Except.error ())
        ⟨⟨7, "private", "T"⟩, some "status"⟩ (some ⟨7, "G", []⟩)).judgeCalls = [] :=
  report_no_tracked_users "@CpTrackBuddybot" (fun _ => Except.error ())
    ⟨⟨7, "private", "T"⟩, some "status"⟩ (some ⟨7, "G", []⟩)
    (Or.inl rfl) (by decide) (by intro g hgeq; cases hgeq; rfl)

/-- C8 counterexample: for the cleaned text `"/add  tourist"` (two
spaces) the second whitespace-separated token exists and is `"tourist"`,
yet the handler replies with the usage error and performs no store
mutation — so it does not extract the second whitespace-separated token
as the handle argument: `split(" ")[1]` is the empty chunk between the
two spaces, which is falsy. -/
theorem add_second_ws_token_counterexample :
    (wsTokens (cleanedOf "@CpTrackBuddybot" "/add  tourist")).get? 1 = some "tourist" ∧
    (splitSpace (cleanedOf "@CpTrackBuddybot" "/add  tourist")).get? 1 = some "" ∧
    (handleMessage "@CpTrackBuddybot" (fun _ => Except.error ())
        ⟨⟨7, "private", "T"⟩, some "/add  tourist"⟩ none).messages = [usageMsg] ∧
    (handleMessage "@CpTrackBuddybot" (fun _ => Except.error ())
        ⟨⟨7, "private", "T"⟩, some "/add  tourist"⟩ none).store = none ∧
    (handleMessage "@CpTrackBuddybot" (fun _ => Except.error ())
        ⟨⟨7, "private", "T"⟩, some "/add  tourist"⟩ none).storeWrites = 0 := by
  decide

/-- C8 (amended): for every message whose cleaned text starts with
`/add`, the handle argument is the element at index 1 of the cleaned
text split on single space characters; when that element is absent or is
the empty string, the handler replies with the usage error, performs no
store access, and leaves the store unchanged. -/
theorem add_missing_arg_usage_error (bu : String) (judge : String → Except Unit Nat)
    (msg : Msg) (store : Option GroupRecord)
    (hgate : msg.chat.type = "private" ∨ strContains (msg.text.getD "") bu = true)
    (hstart : startsWithStr (cleanedOf bu (msg.text.getD "")) "/add" = true)
    (harg : (splitSpace (cleanedOf bu (msg.text.getD ""))).get? 1 = none ∨
      (splitSpace (cleanedOf bu (msg.text.getD ""))).get? 1 = some "") :
    (handleMessage bu judge msg store).messages = [usageMsg] ∧
    (handleMessage bu judge msg store).storeReads = 0 ∧
    (handleMessage bu judge msg store).storeWrites = 0 ∧
    (handleMessage bu judge msg store).store = store := by
  rw [handleMessage_gate_passed bu judge msg store hgate, hstart]
  simp only [if_true]
  unfold handleAdd
  rcases harg with harg | harg
  · rw [harg]
    exact ⟨rfl, rfl, rfl, rfl⟩
  · rw [harg]
    simp only [if_pos rfl]
    exact ⟨rfl, rfl, rfl, rfl⟩

theorem add_missing_arg_usage_error_witness :
    (handleMessage "@CpTrackBuddybot" (fun _ => Except.error ())
        ⟨⟨7, "private", "T"⟩, some "/add"⟩ none).messages = [usageMsg] ∧
    (handleMessage "@CpTrackBuddybot" (fun _ => Except.error ())
        ⟨⟨7, "private", "T"⟩, some "/add"⟩ none).storeReads = 0 ∧
    (handleMessage "@CpTrackBuddybot" (fun _ => Except.error ())
        ⟨⟨7, "private", "T"⟩, some "/add"⟩ none).storeWrites = 0 ∧
    (handleMessage "@CpTrackBuddybot" (fun _ => Except.error ())
        ⟨⟨7, "private", "T"⟩, some "/add"⟩ none).store = none :=
  add_missing_arg_usage_error "@CpTrackBuddybot" (fun _ => Except.error ())
    ⟨⟨7, "private", "T"⟩, some "/add"⟩ none
    (Or.inl rfl) (by decide) (Or.inl (by decide))

/-- C9: dispatch matches `/add` as a bare prefix of the cleaned text:
whenever the cleaned text starts with the characters `/add` — also as
part of a longer first token such as `/addict h` — the handler runs the
add-command branch (handle argument: the second single-space-separated
chunk) and never the report branch, so it makes no judge-API calls. -/
theorem add_prefix_dispatch (bu : String) (judge : String → Except Unit Nat)
    (msg : Msg) (store : Option GroupRecord)
    (hgate : msg.chat.type = "private" ∨ strContains (msg.text.getD "") bu = true)
    (hstart : startsWithStr (cleanedOf bu (msg.text.getD "")) "/add" = true) :
    handleMessage bu judge msg store
      = handleAdd msg.chat.id msg.chat.title (cleanedOf bu (msg.text.getD "")) store ∧
    (handleMessage bu judge msg store).judgeCalls = [] := by
  rw [handleMessage_gate_passed bu judge msg store hgate, hstart]
  simp only [if_true]
  exact ⟨by simp, handleAdd_judgeCalls _ _ _ _⟩

theorem add_prefix_dispatch_witness :
    startsWithStr "/addict h" "/add" = true ∧
    (handleMessage "@CpTrackBuddybot" (fun _ => Except.ok 5)
        ⟨⟨7, "private", "T"⟩, some "/addict h"⟩ (some ⟨7, "G", [⟨"x"⟩]⟩)).messages
      = [addedMsg "h"] ∧
    (handleMessage "@CpTrackBuddybot" (fun _ => Except.ok 5)
        ⟨⟨7, "private", "T"⟩, some "/addict h"⟩ (some ⟨7, "G", [⟨"x"⟩]⟩)).store
      = some ⟨7, "G", [⟨"x"⟩, ⟨"h"⟩]⟩ ∧
    (handleMessage "@CpTrackBuddybot" (fun _ => Except.ok 5)
        ⟨⟨7, "private", "T"⟩, some "/addict h"⟩ (some ⟨7, "G", [⟨"x"⟩]⟩)).judgeCalls = [] :=
  ⟨by decide, by decide, by decide,
    (add_prefix_dispatch "@CpTrackBuddybot" (fun _ => Except.ok 5)
      ⟨⟨7, "private", "T"⟩, some "/addict h"⟩ (some ⟨7, "G", [⟨"x"⟩]⟩)
      (Or.inl rfl) (by decide)).2⟩
